import Mathlib

/-!
Verification development for the FinNet chaincode (Hyperledger Fabric
account/transfer ledger).  Strings are modelled as lists of Unicode code
points (`Str`), the state store as an association list from composite keys
to typed records, and each handler as a pure function from the store and
its arguments to the list of writes it performs plus an optional error,
mirroring the Go source line by line.  Parts of the `model` package that
are not in the repository sources (record structs, `Validate`,
`Credit`/`Debit`, `CreateAccount`, `CreateTransaction`) are modelled from
the specification and marked as such in their doc comments.
-/

namespace FinNet

/-- Strings as lists of Unicode code points (Go strings compared bytewise;
UTF-8 byte order coincides with code-point order). -/
abbrev Str := List Nat

/-- Sentinel used by `createCompositeKey` (`minKeyValue = "0"` in the source). -/
def sentinel : Nat := 48

/-- Code point of `utf8.MaxRune` (U+10FFFF), appended as the range-scan upper bound. -/
def maxRune : Nat := 1114111

/-- Concatenation of the attribute segments, each terminated by the sentinel:
the loop body `key += att + minKeyValue` of `createCompositeKey`. -/
def encAttrs : List Str → Str
  | [] => []
  | a :: as => a ++ sentinel :: encAttrs as

/-- Composite key construction from the source: `objectType + "0"` followed by
each attribute terminated by `"0"`. -/
def createCompositeKey (objectType : Str) (attributes : List Str) : Str :=
  objectType ++ sentinel :: encAttrs attributes

/-- Strict lexicographic order on keys, the order of the host store's range scan. -/
def keyLt : Str → Str → Bool
  | _, [] => false
  | [], _ :: _ => true
  | a :: as, b :: bs => if a < b then true else if a = b then keyLt as bs else false

/-- An attribute is well formed when it avoids the sentinel and stays below the
maximal rune. -/
def attrOK (l : Str) : Prop := sentinel ∉ l ∧ ∀ x ∈ l, x < maxRune

instance (l : Str) : Decidable (attrOK l) := by
  unfold attrOK; infer_instance

/-- A signed 64-bit integer value: an integer in [-2^63, 2^63 - 1].  Spec §3
fixes account balances as signed 64-bit integers, and the source handles all
amounts as Go int64 (`debitAccount(..., amount int64)` at part_001:319,
`strconv.ParseInt(..., 10, 64)` at part_001:161). -/
abbrev I64 := {z : Int // -9223372036854775808 ≤ z ∧ z ≤ 9223372036854775807}

/-- Wrapping two's-complement reduction of an integer into the signed 64-bit
range, the semantics of every Go int64 arithmetic operation. -/
def wrap64 (z : Int) : Int :=
  (z + 9223372036854775808) % 18446744073709551616 - 9223372036854775808

/-- Result of one Go int64 operation, packaged as a 64-bit value. -/
def mk64 (z : Int) : I64 :=
  ⟨wrap64 z, by unfold wrap64; omega⟩

-- Data model.  The `model` package is not part of the repository sources;
-- the record types and their operations are modelled from the
-- specification (§3, §4.3) and marked accordingly.
--------------------------------------------------------------------------

/-- Modelled from the spec: transaction status enumeration (§3): Debited,
Credited or Failed. -/
inductive TxStatus
  | Debited
  | Credited
  | Failed
deriving DecidableEq

/-- Modelled from the spec: transaction failure code (§3): empty on success,
otherwise AccountClosed or InsufficientFunds. -/
inductive TxFailureCode
  | NoFailure
  | AccountClosed
  | InsufficientFunds
deriving DecidableEq

/-- Modelled from the spec: `model.Account` (§3): customerID, accountID,
balance (integer minor units), closed flag. -/
structure Account where
  customerID : Str
  id : Str
  balance : I64
  closed : Bool
deriving DecidableEq

/-- Modelled from the spec: `model.Transfer` (§3): the four identifiers plus
integer amount and fee. -/
structure Transfer where
  fromCustomerID : Str
  fromAccountID : Str
  toCustomerID : Str
  toAccountID : Str
  amount : I64
  fee : I64
deriving DecidableEq

/-- Modelled from the spec: `model.Transaction` (§3): id, owner identifiers,
logical timestamp, amount, fee, counterparty identifiers, failure code and
status. -/
structure Transaction where
  id : Str
  customerID : Str
  accountID : Str
  createdAt : Int
  fromCustomerID : Str
  fromAccountID : Str
  toCustomerID : Str
  toAccountID : Str
  amount : I64
  fee : I64
  failureCode : TxFailureCode
  status : TxStatus
deriving DecidableEq

/-- Modelled from the spec: `model.AccountObjectType`, the object-type tag for
account keys (the model package is absent; the tag value is the literal
"Account", distinct from the transaction tag and sentinel-free). -/
def AccountObjectType : Str := [65, 99, 99, 111, 117, 110, 116]

/-- Modelled from the spec: `model.TransactionObjectType`, the object-type tag
for transaction keys (the literal "Transaction"). -/
def TransactionObjectType : Str := [84, 114, 97, 110, 115, 97, 99, 116, 105, 111, 110]

/-- Modelled from the spec: `model.Transfer.Validate` (§3, §4.5 step 1):
amount strictly positive, all four identifiers non-empty, and the source and
destination (customerID, accountID) pairs differ. -/
def Transfer.validate (t : Transfer) : Bool :=
  decide (0 < t.amount.val) && !t.fromCustomerID.isEmpty && !t.fromAccountID.isEmpty &&
    !t.toCustomerID.isEmpty && !t.toAccountID.isEmpty &&
    decide ((t.fromCustomerID, t.fromAccountID) ≠ (t.toCustomerID, t.toAccountID))

/-- Modelled from the spec: `model.CreateTransaction` (§4.4 Record): builds one
immutable ledger entry from the owning account's identifiers, the transfer
being processed, the failure code and the status; the unique id and logical
timestamp are supplied by the environment and threaded as explicit arguments. -/
def createTransaction (customerID accountID : Str) (t : Transfer)
    (code : TxFailureCode) (status : TxStatus) (txId : Str) (ts : Int) : Transaction :=
  { id := txId
    customerID := customerID
    accountID := accountID
    createdAt := ts
    fromCustomerID := t.fromCustomerID
    fromAccountID := t.fromAccountID
    toCustomerID := t.toCustomerID
    toAccountID := t.toAccountID
    amount := t.amount
    fee := t.fee
    failureCode := code
    status := status }

--------------------------------------------------------------------------
-- State store gateway (external collaborator, modelled from §4.2): an
-- association list from keys to typed records, point get/put, range scan.
--------------------------------------------------------------------------

/-- A record stored in the state store: an Account or a Transaction (the Go
code stores their JSON encodings; the embedding keeps them structured). -/
inductive StoredVal
  | acc (a : Account)
  | txn (t : Transaction)
deriving DecidableEq

/-- The state store: an association list with unique keys maintained by `putState`. -/
abbrev State := List (Str × StoredVal)

/-- Point lookup: `stub.GetState`; a missing key yields `none` (nil bytes). -/
def getState : State → Str → Option StoredVal
  | [], _ => none
  | (k, v) :: rest, key => if k = key then some v else getState rest key

/-- Point write: `stub.PutState`; overwrites the binding of the key if present,
otherwise appends it. -/
def putState : State → Str → StoredVal → State
  | [], key, v => [(key, v)]
  | (k, w) :: rest, key, v =>
    if k = key then (k, v) :: rest else (k, w) :: putState rest key v

/-- Range scan `stub.RangeQueryState` over the half-open interval
[lo, hi) in key order (§4.2 gateway contract). -/
def rangeQueryState (s : State) (lo hi : Str) : List (Str × StoredVal) :=
  s.filter (fun kv => !keyLt kv.1 lo && keyLt kv.1 hi)

/-- Decoding stored bytes into an Account (`bytesToStruct`): a stored account
record decodes to itself; unmarshalling a transaction record fills the
overlapping customerID/accountID fields (§3 gives both record types those
attributes) and leaves balance and closed at their Go zero values.  No
settled theorem depends on this ill-typed branch: every judged statement
hypothesises an account record at the key it reads. -/
def accOf : StoredVal → Account
  | .acc a => a
  | .txn tx => ⟨tx.customerID, tx.accountID, mk64 0, false⟩

-- Handler operations, translated from the chaincode source.
--------------------------------------------------------------------------

/-- Composite key of an account record:
`createCompositeKey(model.AccountObjectType, [customerID, accountID])`. -/
def accountKey (customerID accountID : Str) : Str :=
  createCompositeKey AccountObjectType [customerID, accountID]

/-- Composite key of a transaction record:
`createCompositeKey(model.TransactionObjectType, [customerID, accountID, id])`. -/
def txnKey (customerID accountID txId : Str) : Str :=
  createCompositeKey TransactionObjectType [customerID, accountID, txId]

/-- One `stub.PutState` performed by a handler, tagged by record type. -/
inductive Write
  | putAcc (key : Str) (a : Account)
  | putTxn (key : Str) (t : Transaction)
deriving DecidableEq

/-- Applies one write to the store. -/
def applyWrite (s : State) : Write → State
  | .putAcc k a => putState s k (.acc a)
  | .putTxn k t => putState s k (.txn t)

/-- Applies a handler's writes to the store, in order. -/
def applyWrites (s : State) (ws : List Write) : State := ws.foldl applyWrite s

/-- Errors returned by the handlers (descriptive Go error values). -/
inductive CcErr
  | validationFailed
  | notFound (accountID : Str)
  | parseAmount
  | fromClosed
  | toClosed
  | insufficientFunds
deriving DecidableEq

/-- The write performed by `recordTransaction`: create the transaction via
`model.CreateTransaction` and put it under its composite key. -/
def recordTransaction (customerID accountID : Str) (t : Transfer)
    (code : TxFailureCode) (status : TxStatus) (txId : Str) (ts : Int) : Write :=
  let tx := createTransaction customerID accountID t code status txId ts
  .putTxn (txnKey tx.customerID tx.accountID tx.id) tx

/-- The write performed by `debitAccount`: `a.Debit(amount)` (modelled from the
spec §4.3: `balance -= amount`, a wrapping Go int64 subtraction) then put the
record under its composite key. -/
def debitAccountW (a : Account) (amount : I64) : Write :=
  let a2 : Account := { a with balance := mk64 (a.balance.val - amount.val) }
  .putAcc (accountKey a2.customerID a2.id) a2

/-- The write performed by `creditAccount`: `a.Credit(amount)` (modelled from
the spec §4.3: `balance += amount`, a wrapping Go int64 addition) then put
the record under its composite key. -/
def creditAccountW (a : Account) (amount : I64) : Write :=
  let a2 : Account := { a with balance := mk64 (a.balance.val + amount.val) }
  .putAcc (accountKey a2.customerID a2.id) a2

/-- Translation of `TransferMoney`, branch by branch from the source: validate the
transfer, fetch both accounts (not-found is a hard failure with no write),
reject a closed source, then a closed destination, then insufficient funds
(`fromAccount.Balance - t.Amount < 0`), each rejection recording one Failed
transaction; otherwise debit the source by amount+fee, record a Debited
transaction, credit the destination by amount, record a Credited transaction.
The fresh transaction ids and the logical timestamp are environment-supplied
parameters.  Returns the list of writes performed and the error, if any. -/
def transferMoney (s : State) (t : Transfer) (txId1 txId2 : Str) (ts : Int) :
    List Write × Option CcErr :=
  if t.validate then
    match getState s (accountKey t.fromCustomerID t.fromAccountID) with
    | none => ([], some (.notFound t.fromAccountID))
    | some vFrom =>
      let fromAccount := accOf vFrom
      match getState s (accountKey t.toCustomerID t.toAccountID) with
      | none => ([], some (.notFound t.toAccountID))
      | some vTo =>
        let toAccount := accOf vTo
        if fromAccount.closed then
          ([recordTransaction fromAccount.customerID fromAccount.id t
              .AccountClosed .Failed txId1 ts], some .fromClosed)
        else if toAccount.closed then
          ([recordTransaction toAccount.customerID toAccount.id t
              .AccountClosed .Failed txId1 ts], some .toClosed)
        else if (mk64 (fromAccount.balance.val - t.amount.val)).val < 0 then
          ([recordTransaction fromAccount.customerID fromAccount.id t
              .InsufficientFunds .Failed txId1 ts], some .insufficientFunds)
        else
          ([debitAccountW fromAccount (mk64 (t.amount.val + t.fee.val)),
            recordTransaction fromAccount.customerID fromAccount.id t
              .NoFailure .Debited txId1 ts,
            creditAccountW toAccount t.amount,
            recordTransaction toAccount.customerID toAccount.id t
              .NoFailure .Credited txId2 ts], none)
  else ([], some .validationFailed)

/-- Digit accumulator of `strconv.ParseInt`: consumes decimal digits, failing
on any non-digit character. -/
def digitsValAux (acc : Nat) : Str → Option Nat
  | [] => some acc
  | c :: cs =>
    if 48 ≤ c ∧ c ≤ 57 then digitsValAux (acc * 10 + (c - 48)) cs else none

/-- Model of `strconv.ParseInt(s, 10, 64)`: optional sign, at least one decimal digit,
result within the signed 64-bit range; `none` models a parse error. -/
def goParseInt64 (s : Str) : Option I64 :=
  let signBody : Bool × Str :=
    match s with
    | 43 :: rest => (false, rest)
    | 45 :: rest => (true, rest)
    | _ => (false, s)
  match signBody.2 with
  | [] => none
  | _ :: _ =>
    match digitsValAux 0 signBody.2 with
    | none => none
    | some n =>
      let v : Int := if signBody.1 then -(n : Int) else (n : Int)
      if h : -9223372036854775808 ≤ v ∧ v ≤ 9223372036854775807 then some ⟨v, h⟩
      else none

/-- Translation of `TopupAccount` from the source: fetch the account (not-found
fails with no write), parse the amount with `strconv.ParseInt` (failure writes
nothing), then `account.Credit(amount)` and put the record back.  Note the
source checks neither positivity of the amount nor the closed flag. -/
def topupAccount (s : State) (customerID accountID amountArg : Str) :
    List Write × Option CcErr :=
  match getState s (accountKey customerID accountID) with
  | none => ([], some (.notFound accountID))
  | some v =>
    let account := accOf v
    match goParseInt64 amountArg with
    | none => ([], some .parseAmount)
    | some amount =>
      let a2 : Account := { account with balance := mk64 (account.balance.val + amount.val) }
      ([.putAcc (accountKey a2.customerID a2.id) a2], none)

/-- Translation of `CloseAccount` from the source: fetch the account (not-found
fails with no write), set `closed = true`, and put the record back under the
key rebuilt from the record's own fields. -/
def closeAccount (s : State) (customerID accountID : Str) :
    List Write × Option CcErr :=
  match getState s (accountKey customerID accountID) with
  | none => ([], some (.notFound accountID))
  | some v =>
    let account := accOf v
    let a2 : Account := { account with closed := true }
    ([.putAcc (accountKey a2.customerID a2.id) a2], none)

/-- Modelled from the spec: `model.CreateAccount` (§4.3 OpenAccount): decodes
the payload and requires non-empty customerID/accountID and a non-negative
initial balance; the decoded structure is the argument. -/
def createAccount (payload : Account) : Option Account :=
  if payload.customerID = [] ∨ payload.id = [] ∨ payload.balance.val < 0 then none
  else some payload

/-- Translation of `OpenAccount` from the source: create the account from the
payload (validation failure writes nothing) and put it under its composite
key — with no existence check on the key. -/
def openAccount (payload : Account) : List Write × Option CcErr :=
  match createAccount payload with
  | none => ([], some .validationFailed)
  | some account =>
    ([.putAcc (accountKey account.customerID account.id) account], none)

/-- Translation of the source partial composite key query helper: range scan from
the partial composite key to that key with `utf8.MaxRune` appended. -/
def partKeyQuery (s : State) (objectType : Str) (keys : List Str) :
    List (Str × StoredVal) :=
  let pk := createCompositeKey objectType keys
  rangeQueryState s pk (pk ++ [maxRune])

/-- Translation of `GetAccountList` from the source: partial-key scan on
`[customerID]` under the account object type, decoding each stored value as
an Account. -/
def getAccountList (s : State) (customerID : Str) : List Account :=
  (partKeyQuery s AccountObjectType [customerID]).map (fun kv => accOf kv.2)

--------------------------------------------------------------------------
-- Helper lemmas about sentinel-terminated segments and the key order.

theorem seg_inj : ∀ (a b u v : Str), sentinel ∉ a → sentinel ∉ b →
    a ++ sentinel :: u = b ++ sentinel :: v → a = b ∧ u = v := by
  intro a
  induction a with
  | nil =>
    intro b u v _ hb h
    cases b with
    | nil => simpa using h
    | cons c b' =>
      simp only [List.nil_append, List.cons_append, List.cons.injEq] at h
      exact absurd (h.1 ▸ List.mem_cons_self c b') hb
  | cons x a' ih =>
    intro b u v ha hb h
    cases b with
    | nil =>
      simp only [List.cons_append, List.nil_append, List.cons.injEq] at h
      exact absurd (h.1 ▸ List.mem_cons_self x a') ha
    | cons c b' =>
      simp only [List.cons_append, List.cons.injEq] at h
      have ha' : sentinel ∉ a' := fun hm => ha (List.mem_cons_of_mem x hm)
      have hb' : sentinel ∉ b' := fun hm => hb (List.mem_cons_of_mem c hm)
      obtain ⟨h1, h2⟩ := ih b' u v ha' hb' h.2
      exact ⟨by rw [h.1, h1], h2⟩

theorem encAttrs_inj : ∀ (xs ys : List Str),
    (∀ a ∈ xs, sentinel ∉ a) → (∀ a ∈ ys, sentinel ∉ a) →
    encAttrs xs = encAttrs ys → xs = ys := by
  intro xs
  induction xs with
  | nil =>
    intro ys _ _ h
    cases ys with
    | nil => rfl
    | cons y ys' => simp [encAttrs] at h
  | cons x xs' ih =>
    intro ys hx hy h
    cases ys with
    | nil => simp [encAttrs] at h
    | cons y ys' =>
      simp only [encAttrs] at h
      obtain ⟨h1, h2⟩ := seg_inj x y _ _ (hx x (List.mem_cons_self x xs'))
        (hy y (List.mem_cons_self y ys')) h
      have := ih ys' (fun a ha => hx a (List.mem_cons_of_mem x ha))
        (fun a ha => hy a (List.mem_cons_of_mem y ha)) h2
      rw [h1, this]

theorem encAttrs_isPre : ∀ (xs ys : List Str),
    (∀ a ∈ xs, sentinel ∉ a) → (∀ a ∈ ys, sentinel ∉ a) →
    encAttrs xs <+: encAttrs ys → xs <+: ys := by
  intro xs
  induction xs with
  | nil => intro ys _ _ _; exact ⟨ys, rfl⟩
  | cons x xs' ih =>
    intro ys hx hy h
    cases ys with
    | nil =>
      obtain ⟨t, ht⟩ := h
      simp [encAttrs] at ht
    | cons y ys' =>
      obtain ⟨t, ht⟩ := h
      simp only [encAttrs, List.append_assoc, List.cons_append] at ht
      obtain ⟨h1, h2⟩ := seg_inj x y _ _ (hx x (List.mem_cons_self x xs'))
        (hy y (List.mem_cons_self y ys')) ht
      have hpre : encAttrs xs' <+: encAttrs ys' := ⟨t, h2⟩
      have := ih ys' (fun a ha => hx a (List.mem_cons_of_mem x ha))
        (fun a ha => hy a (List.mem_cons_of_mem y ha)) hpre
      obtain ⟨u, hu⟩ := this
      exact ⟨u, by rw [h1, List.cons_append, hu]⟩

theorem createCompositeKey_inj (T : Str) {xs ys : List Str}
    (hx : ∀ a ∈ xs, sentinel ∉ a) (hy : ∀ a ∈ ys, sentinel ∉ a)
    (h : createCompositeKey T xs = createCompositeKey T ys) : xs = ys := by
  unfold createCompositeKey at h
  have h2 : encAttrs xs = encAttrs ys := by
    have := List.append_cancel_left h
    simpa using this
  exact encAttrs_inj xs ys hx hy h2

theorem createCompositeKey_isPre (T : Str) {xs ys : List Str}
    (hx : ∀ a ∈ xs, sentinel ∉ a) (hy : ∀ a ∈ ys, sentinel ∉ a)
    (h : createCompositeKey T xs <+: createCompositeKey T ys) : xs <+: ys := by
  unfold createCompositeKey at h
  obtain ⟨t, ht⟩ := h
  simp only [List.append_assoc, List.cons_append] at ht
  have h2 : encAttrs xs ++ t = encAttrs ys := by
    have := List.append_cancel_left ht
    simpa using this
  exact encAttrs_isPre xs ys hx hy ⟨t, h2⟩

-- Order lemmas used for the range-scan characterization.

theorem keyLt_append_self_right (P X : Str) : keyLt (P ++ X) P = false := by
  induction P with
  | nil => cases X <;> simp [keyLt]
  | cons p P' ih => simp [keyLt, ih]

theorem keyLt_append_both (P : Str) (X Y : Str) :
    keyLt (P ++ X) (P ++ Y) = keyLt X Y := by
  induction P with
  | nil => rfl
  | cons p P' ih => simp [keyLt, ih]

theorem keyLt_extend_false : ∀ (k P T : Str), keyLt k P = false → ¬ P <+: k →
    keyLt k (P ++ T) = false := by
  intro k
  induction k with
  | nil =>
    intro P T h1 h2
    cases P with
    | nil => exact absurd ⟨[], rfl⟩ h2
    | cons p P' => simp [keyLt] at h1
  | cons a k' ih =>
    intro P T h1 h2
    cases P with
    | nil => exact absurd ⟨a :: k', rfl⟩ h2
    | cons p P' =>
      simp only [keyLt] at h1
      by_cases hlt : a < p
      · simp [hlt] at h1
      · by_cases heq : a = p
        · subst heq
          simp only [if_neg hlt, if_pos rfl] at h1
          have hp' : ¬ P' <+: k' := fun hpre =>
            h2 ((List.cons_prefix_cons).2 ⟨rfl, hpre⟩)
          simp [keyLt, List.cons_append, hlt, ih P' T h1 hp']
        · simp [keyLt, List.cons_append, hlt, heq]

--------------------------------------------------------------------------
-- Store lemmas.

theorem getState_putState_self (s : State) (k : Str) (v : StoredVal) :
    getState (putState s k v) k = some v := by
  induction s with
  | nil => simp [putState, getState]
  | cons kv rest ih =>
    by_cases h : kv.1 = k
    · simp [putState, getState, h]
    · simp [putState, getState, h, ih]

theorem getState_putState_ne (s : State) {k q : Str} (v : StoredVal) (h : q ≠ k) :
    getState (putState s k v) q = getState s q := by
  have h' : ¬ k = q := fun hh => h hh.symm
  induction s with
  | nil => simp [putState, getState, h']
  | cons kv rest ih =>
    obtain ⟨k0, w0⟩ := kv
    by_cases hk : k0 = k
    · subst hk
      simp [putState, getState, h']
    · simp [putState, getState, hk, ih]

theorem putState_idem (s : State) (k : Str) (v : StoredVal) :
    putState (putState s k v) k v = putState s k v := by
  induction s with
  | nil => simp [putState]
  | cons kv rest ih =>
    by_cases h : kv.1 = k
    · simp [putState, h]
    · simp [putState, h, ih]

--------------------------------------------------------------------------

-- Key-separation and branch lemmas.
--------------------------------------------------------------------------

theorem mk64_val (z : Int) : (mk64 z).val = wrap64 z := rfl

theorem wrap64_eq_self {z : Int} (h1 : -9223372036854775808 ≤ z)
    (h2 : z ≤ 9223372036854775807) : wrap64 z = z := by
  unfold wrap64
  omega

theorem wrap64_add_mul (z k : Int) :
    wrap64 (z + 18446744073709551616 * k) = wrap64 z := by
  unfold wrap64
  rw [show z + 18446744073709551616 * k + 9223372036854775808 =
      z + 9223372036854775808 + 18446744073709551616 * k from by ring,
    Int.add_mul_emod_self_left]

theorem wrap64_sub_wrap64 (a b : Int) :
    wrap64 (a - wrap64 b) = wrap64 (a - b) := by
  have h : wrap64 b = b - 18446744073709551616 *
      ((b + 9223372036854775808) / 18446744073709551616) := by
    unfold wrap64
    rw [Int.emod_def]
    ring
  rw [h, show a - (b - 18446744073709551616 *
      ((b + 9223372036854775808) / 18446744073709551616)) =
      (a - b) + 18446744073709551616 *
      ((b + 9223372036854775808) / 18446744073709551616) from by ring,
    wrap64_add_mul]

theorem validate_amount_pos (t : Transfer) (hv : t.validate = true) :
    0 < t.amount.val := by
  unfold Transfer.validate at hv
  simp only [Bool.and_eq_true, decide_eq_true_eq] at hv
  exact hv.1.1.1.1.1

theorem txnKey_ne_accountKey (c a i c2 a2 : Str) :
    txnKey c a i ≠ accountKey c2 a2 := by
  intro h
  simp [txnKey, accountKey, createCompositeKey, TransactionObjectType,
    AccountObjectType] at h

theorem accountKey_ne_txnKey (c2 a2 c a i : Str) :
    accountKey c2 a2 ≠ txnKey c a i :=
  fun h => txnKey_ne_accountKey c a i c2 a2 h.symm

theorem transferMoney_success_eq (s : State) (t : Transfer) (i1 i2 : Str)
    (ts : Int) (src dst : Account)
    (hv : t.validate = true)
    (hs : getState s (accountKey t.fromCustomerID t.fromAccountID) = some (.acc src))
    (hd : getState s (accountKey t.toCustomerID t.toAccountID) = some (.acc dst))
    (h1 : src.closed = false) (h2 : dst.closed = false)
    (h3 : ¬ (mk64 (src.balance.val - t.amount.val)).val < 0) :
    transferMoney s t i1 i2 ts =
      ([Write.putAcc (accountKey src.customerID src.id)
          { src with balance := mk64 (src.balance.val - (mk64 (t.amount.val + t.fee.val)).val) },
        Write.putTxn (txnKey src.customerID src.id i1)
          (createTransaction src.customerID src.id t .NoFailure .Debited i1 ts),
        Write.putAcc (accountKey dst.customerID dst.id)
          { dst with balance := mk64 (dst.balance.val + t.amount.val) },
        Write.putTxn (txnKey dst.customerID dst.id i2)
          (createTransaction dst.customerID dst.id t .NoFailure .Credited i2 ts)],
       none) := by
  simp [transferMoney, hv, hs, hd, accOf, h1, h2, h3, debitAccountW,
    creditAccountW, recordTransaction, createTransaction]

theorem transferMoney_insufficient_eq (s : State) (t : Transfer) (i1 i2 : Str)
    (ts : Int) (src dst : Account)
    (hv : t.validate = true)
    (hs : getState s (accountKey t.fromCustomerID t.fromAccountID) = some (.acc src))
    (hd : getState s (accountKey t.toCustomerID t.toAccountID) = some (.acc dst))
    (h1 : src.closed = false) (h2 : dst.closed = false)
    (h3 : (mk64 (src.balance.val - t.amount.val)).val < 0) :
    transferMoney s t i1 i2 ts =
      ([Write.putTxn (txnKey src.customerID src.id i1)
          (createTransaction src.customerID src.id t .InsufficientFunds .Failed i1 ts)],
       some .insufficientFunds) := by
  simp [transferMoney, hv, hs, hd, accOf, h1, h2, h3,
    recordTransaction, createTransaction]

theorem transferMoney_fromClosed_eq (s : State) (t : Transfer) (i1 i2 : Str)
    (ts : Int) (src dst : Account)
    (hv : t.validate = true)
    (hs : getState s (accountKey t.fromCustomerID t.fromAccountID) = some (.acc src))
    (hd : getState s (accountKey t.toCustomerID t.toAccountID) = some (.acc dst))
    (h1 : src.closed = true) :
    transferMoney s t i1 i2 ts =
      ([Write.putTxn (txnKey src.customerID src.id i1)
          (createTransaction src.customerID src.id t .AccountClosed .Failed i1 ts)],
       some .fromClosed) := by
  simp [transferMoney, hv, hs, hd, accOf, h1, recordTransaction, createTransaction]

theorem transferMoney_toClosed_eq (s : State) (t : Transfer) (i1 i2 : Str)
    (ts : Int) (src dst : Account)
    (hv : t.validate = true)
    (hs : getState s (accountKey t.fromCustomerID t.fromAccountID) = some (.acc src))
    (hd : getState s (accountKey t.toCustomerID t.toAccountID) = some (.acc dst))
    (h1 : src.closed = false) (h2 : dst.closed = true) :
    transferMoney s t i1 i2 ts =
      ([Write.putTxn (txnKey dst.customerID dst.id i1)
          (createTransaction dst.customerID dst.id t .AccountClosed .Failed i1 ts)],
       some .toClosed) := by
  simp [transferMoney, hv, hs, hd, accOf, h1, h2, recordTransaction, createTransaction]

/-- A single putTxn write leaves every account key of the store unchanged. -/
theorem applyWrites_single_txn (s : State) (k : Str) (tx : Transaction)
    (c a : Str) (hk : k ≠ accountKey c a) :
    getState (applyWrites s [Write.putTxn k tx]) (accountKey c a) =
      getState s (accountKey c a) := by
  simp only [applyWrites, List.foldl_cons, List.foldl_nil, applyWrite]
  exact getState_putState_ne s _ (fun h => hk h.symm)

/-- C1: every call to TransferMoney has exactly one of three outcomes on the
store: the success path performs exactly two Account writes (source then
destination) and two Transaction writes (a Debited one on the source record,
then a Credited one on the destination record); a rejection at the
closed-account or insufficient-funds checks performs exactly one Failed
Transaction write and no Account write; a validation failure or a not-found
lookup of either account performs no write at all.  No other combination of
writes occurs. -/
theorem transfer_outcome_trichotomy (s : State) (t : Transfer) (i1 i2 : Str)
    (ts : Int) :
    (∃ e, transferMoney s t i1 i2 ts = ([], some e) ∧
       (e = CcErr.validationFailed ∨ e = CcErr.notFound t.fromAccountID ∨
        e = CcErr.notFound t.toAccountID)) ∨
    (∃ k tx e, transferMoney s t i1 i2 ts = ([Write.putTxn k tx], some e) ∧
       tx.status = TxStatus.Failed ∧
       (tx.failureCode = TxFailureCode.AccountClosed ∨
        tx.failureCode = TxFailureCode.InsufficientFunds) ∧
       (e = CcErr.fromClosed ∨ e = CcErr.toClosed ∨ e = CcErr.insufficientFunds)) ∨
    (∃ a1 tx1 a2 tx2, transferMoney s t i1 i2 ts =
        ([Write.putAcc (accountKey a1.customerID a1.id) a1,
          Write.putTxn (txnKey tx1.customerID tx1.accountID tx1.id) tx1,
          Write.putAcc (accountKey a2.customerID a2.id) a2,
          Write.putTxn (txnKey tx2.customerID tx2.accountID tx2.id) tx2], none) ∧
       tx1.status = TxStatus.Debited ∧ tx1.customerID = a1.customerID ∧
       tx1.accountID = a1.id ∧
       tx2.status = TxStatus.Credited ∧ tx2.customerID = a2.customerID ∧
       tx2.accountID = a2.id) := by
  by_cases hv : t.validate
  · cases hf : getState s (accountKey t.fromCustomerID t.fromAccountID) with
    | none =>
      exact Or.inl ⟨_, by simp [transferMoney, hv, hf], Or.inr (Or.inl rfl)⟩
    | some vf =>
      cases hg : getState s (accountKey t.toCustomerID t.toAccountID) with
      | none =>
        exact Or.inl ⟨_, by simp [transferMoney, hv, hf, hg], Or.inr (Or.inr rfl)⟩
      | some vt =>
        by_cases hc1 : (accOf vf).closed
        · refine Or.inr (Or.inl
            ⟨txnKey (accOf vf).customerID (accOf vf).id i1,
             createTransaction (accOf vf).customerID (accOf vf).id t
               .AccountClosed .Failed i1 ts,
             CcErr.fromClosed, ?_, rfl, Or.inl rfl, Or.inl rfl⟩)
          simp [transferMoney, hv, hf, hg, hc1, recordTransaction, createTransaction]
        · by_cases hc2 : (accOf vt).closed
          · refine Or.inr (Or.inl
              ⟨txnKey (accOf vt).customerID (accOf vt).id i1,
               createTransaction (accOf vt).customerID (accOf vt).id t
                 .AccountClosed .Failed i1 ts,
               CcErr.toClosed, ?_, rfl, Or.inl rfl, Or.inr (Or.inl rfl)⟩)
            simp [transferMoney, hv, hf, hg, hc1, hc2, recordTransaction, createTransaction]
          · by_cases hb : (mk64 ((accOf vf).balance.val - t.amount.val)).val < 0
            · refine Or.inr (Or.inl
                ⟨txnKey (accOf vf).customerID (accOf vf).id i1,
                 createTransaction (accOf vf).customerID (accOf vf).id t
                   .InsufficientFunds .Failed i1 ts,
                 CcErr.insufficientFunds, ?_, rfl, Or.inr rfl,
                 Or.inr (Or.inr rfl)⟩)
              simp [transferMoney, hv, hf, hg, hc1, hc2, hb, recordTransaction, createTransaction]
            · refine Or.inr (Or.inr
                ⟨{ accOf vf with balance := mk64 ((accOf vf).balance.val - (mk64 (t.amount.val + t.fee.val)).val) },
                  createTransaction (accOf vf).customerID (accOf vf).id t
                    .NoFailure .Debited i1 ts,
                  { accOf vt with balance := mk64 ((accOf vt).balance.val + t.amount.val) },
                  createTransaction (accOf vt).customerID (accOf vt).id t
                    .NoFailure .Credited i2 ts,
                  ?_, rfl, rfl, rfl, rfl, rfl, rfl⟩)
              simp [transferMoney, hv, hf, hg, hc1, hc2, hb, recordTransaction,
                debitAccountW, creditAccountW, createTransaction]
  · exact Or.inl ⟨_, by simp [transferMoney, hv], Or.inl rfl⟩

theorem transfer_success_state (s : State) (t : Transfer) (i1 i2 : Str)
    (ts : Int) (src dst : Account)
    (hv : t.validate = true)
    (hs : getState s (accountKey t.fromCustomerID t.fromAccountID) = some (.acc src))
    (hsc : src.customerID = t.fromCustomerID) (hsi : src.id = t.fromAccountID)
    (hd : getState s (accountKey t.toCustomerID t.toAccountID) = some (.acc dst))
    (hdc : dst.customerID = t.toCustomerID) (hdi : dst.id = t.toAccountID)
    (h1 : src.closed = false) (h2 : dst.closed = false)
    (h3 : ¬ (mk64 (src.balance.val - t.amount.val)).val < 0)
    (hne : accountKey t.fromCustomerID t.fromAccountID ≠
      accountKey t.toCustomerID t.toAccountID) :
    (transferMoney s t i1 i2 ts).2 = none ∧
    getState (applyWrites s (transferMoney s t i1 i2 ts).1)
        (accountKey t.fromCustomerID t.fromAccountID) =
      some (.acc { src with balance := mk64 (src.balance.val - (mk64 (t.amount.val + t.fee.val)).val) }) ∧
    getState (applyWrites s (transferMoney s t i1 i2 ts).1)
        (accountKey t.toCustomerID t.toAccountID) =
      some (.acc { dst with balance := mk64 (dst.balance.val + t.amount.val) }) := by
  have heq := transferMoney_success_eq s t i1 i2 ts src dst hv hs hd h1 h2 h3
  rw [heq]
  simp only [applyWrites, List.foldl_cons, List.foldl_nil, applyWrite]
  rw [hsc, hsi, hdc, hdi]
  refine ⟨by simp, ?_, ?_⟩
  · rw [getState_putState_ne _ _ (accountKey_ne_txnKey _ _ _ _ _)]
    rw [getState_putState_ne _ _ hne]
    rw [getState_putState_ne _ _ (accountKey_ne_txnKey _ _ _ _ _)]
    exact getState_putState_self _ _ _
  · rw [getState_putState_ne _ _ (accountKey_ne_txnKey _ _ _ _ _)]
    exact getState_putState_self _ _ _

/-- C2 counterexample: balance arithmetic is wrapping int64, so exact balance
conservation fails at representable inputs: with destination balance
2^63 − 1 and amount 1 the transfer is accepted and the stored destination
balance wraps to −2^63 instead of increasing by the amount. -/
theorem credit_wraparound_counterexample :
    ((transferMoney
        [(accountKey [99] [97], StoredVal.acc ⟨[99], [97], mk64 5, false⟩),
         (accountKey [100] [98],
           StoredVal.acc ⟨[100], [98], mk64 9223372036854775807, false⟩)]
        ⟨[99], [97], [100], [98], mk64 1, mk64 0⟩ [116] [117] 0).2 = none) ∧
    getState (applyWrites
        [(accountKey [99] [97], StoredVal.acc ⟨[99], [97], mk64 5, false⟩),
         (accountKey [100] [98],
           StoredVal.acc ⟨[100], [98], mk64 9223372036854775807, false⟩)]
        (transferMoney
          [(accountKey [99] [97], StoredVal.acc ⟨[99], [97], mk64 5, false⟩),
           (accountKey [100] [98],
             StoredVal.acc ⟨[100], [98], mk64 9223372036854775807, false⟩)]
          ⟨[99], [97], [100], [98], mk64 1, mk64 0⟩ [116] [117] 0).1)
        (accountKey [100] [98]) =
      some (StoredVal.acc ⟨[100], [98], mk64 (-9223372036854775808), false⟩) ∧
    (mk64 (-9223372036854775808)).val ≠
      (mk64 9223372036854775807).val + (mk64 1).val := by
  refine ⟨?_, ?_, ?_⟩ <;> decide

/-- C2 amended: for every transfer that TransferMoney accepts (valid transfer,
both accounts stored under their keys and open, source balance at least the
amount, two distinct account keys) whose arithmetic stays inside the int64
range (non-negative fee, amount + fee and destination balance + amount
representable), the call succeeds, the stored source balance afterwards
equals its prior balance minus (amount + fee), and the stored destination
balance equals its prior balance plus the amount — the fee is not credited
to the destination.  At the type bounds the program's int64 arithmetic wraps
instead. -/
theorem transfer_balance_conservation (s : State) (t : Transfer) (i1 i2 : Str)
    (ts : Int) (src dst : Account)
    (hv : t.validate = true)
    (hs : getState s (accountKey t.fromCustomerID t.fromAccountID) = some (.acc src))
    (hsc : src.customerID = t.fromCustomerID) (hsi : src.id = t.fromAccountID)
    (hd : getState s (accountKey t.toCustomerID t.toAccountID) = some (.acc dst))
    (hdc : dst.customerID = t.toCustomerID) (hdi : dst.id = t.toAccountID)
    (h1 : src.closed = false) (h2 : dst.closed = false)
    (h3 : 0 ≤ src.balance.val - t.amount.val)
    (hfee : 0 ≤ t.fee.val)
    (hsum : t.amount.val + t.fee.val ≤ 9223372036854775807)
    (hdb : dst.balance.val + t.amount.val ≤ 9223372036854775807)
    (hne : accountKey t.fromCustomerID t.fromAccountID ≠
      accountKey t.toCustomerID t.toAccountID) :
    (transferMoney s t i1 i2 ts).2 = none ∧
    getState (applyWrites s (transferMoney s t i1 i2 ts).1)
        (accountKey t.fromCustomerID t.fromAccountID) =
      some (.acc { src with balance := mk64 (src.balance.val - (t.amount.val + t.fee.val)) }) ∧
    (mk64 (src.balance.val - (t.amount.val + t.fee.val))).val =
      src.balance.val - (t.amount.val + t.fee.val) ∧
    getState (applyWrites s (transferMoney s t i1 i2 ts).1)
        (accountKey t.toCustomerID t.toAccountID) =
      some (.acc { dst with balance := mk64 (dst.balance.val + t.amount.val) }) ∧
    (mk64 (dst.balance.val + t.amount.val)).val =
      dst.balance.val + t.amount.val := by
  have hamt := validate_amount_pos t hv
  obtain ⟨hsl, hsu⟩ := src.balance.property
  obtain ⟨hdl, hdu⟩ := dst.balance.property
  obtain ⟨hal, hau⟩ := t.amount.property
  obtain ⟨hfl, hfu⟩ := t.fee.property
  have hsum' : (mk64 (t.amount.val + t.fee.val)).val =
      t.amount.val + t.fee.val := by
    rw [mk64_val]
    exact wrap64_eq_self (by omega) (by omega)
  have h3' : ¬ (mk64 (src.balance.val - t.amount.val)).val < 0 := by
    rw [mk64_val, wrap64_eq_self (by omega) (by omega)]
    omega
  have hst := transfer_success_state s t i1 i2 ts src dst hv hs hsc hsi hd hdc
    hdi h1 h2 h3' hne
  rw [hsum'] at hst
  refine ⟨hst.1, hst.2.1, ?_, hst.2.2, ?_⟩
  · rw [mk64_val]
    exact wrap64_eq_self (by omega) (by omega)
  · rw [mk64_val]
    exact wrap64_eq_self (by omega) (by omega)

/-- Witness for the amended C2 at the spec §8 scenario: accounts (c, a, 1000)
and (d, b, 0), transfer of 200 with fee 10; afterwards the stored balances
are 790 and 200. -/
theorem transfer_balance_conservation_witness :
    (0 : Int) ≤ (mk64 1000).val - (mk64 200).val ∧
    ((transferMoney
        [(accountKey [99] [97], StoredVal.acc ⟨[99], [97], mk64 1000, false⟩),
         (accountKey [100] [98], StoredVal.acc ⟨[100], [98], mk64 0, false⟩)]
        ⟨[99], [97], [100], [98], mk64 200, mk64 10⟩ [116] [117] 0).2 = none ∧
     getState (applyWrites
        [(accountKey [99] [97], StoredVal.acc ⟨[99], [97], mk64 1000, false⟩),
         (accountKey [100] [98], StoredVal.acc ⟨[100], [98], mk64 0, false⟩)]
        (transferMoney
          [(accountKey [99] [97], StoredVal.acc ⟨[99], [97], mk64 1000, false⟩),
           (accountKey [100] [98], StoredVal.acc ⟨[100], [98], mk64 0, false⟩)]
          ⟨[99], [97], [100], [98], mk64 200, mk64 10⟩ [116] [117] 0).1)
        (accountKey [99] [97]) =
      some (StoredVal.acc ⟨[99], [97], mk64 790, false⟩) ∧
     getState (applyWrites
        [(accountKey [99] [97], StoredVal.acc ⟨[99], [97], mk64 1000, false⟩),
         (accountKey [100] [98], StoredVal.acc ⟨[100], [98], mk64 0, false⟩)]
        (transferMoney
          [(accountKey [99] [97], StoredVal.acc ⟨[99], [97], mk64 1000, false⟩),
           (accountKey [100] [98], StoredVal.acc ⟨[100], [98], mk64 0, false⟩)]
          ⟨[99], [97], [100], [98], mk64 200, mk64 10⟩ [116] [117] 0).1)
        (accountKey [100] [98]) =
      some (StoredVal.acc ⟨[100], [98], mk64 200, false⟩)) := by
  have h := transfer_balance_conservation
    [(accountKey [99] [97], StoredVal.acc ⟨[99], [97], mk64 1000, false⟩),
     (accountKey [100] [98], StoredVal.acc ⟨[100], [98], mk64 0, false⟩)]
    ⟨[99], [97], [100], [98], mk64 200, mk64 10⟩ [116] [117] 0
    ⟨[99], [97], mk64 1000, false⟩ ⟨[100], [98], mk64 0, false⟩
    (by decide) (by decide) (by decide) (by decide) (by decide) (by decide)
    (by decide) (by decide) (by decide) (by decide) (by decide) (by decide)
    (by decide) (by decide)
  exact ⟨by decide, h.1, h.2.1.trans (by decide), h.2.2.2.1.trans (by decide)⟩

/-- C3 counterexample: the floor check `fromAccount.Balance - t.Amount` is a
wrapping int64 subtraction: with source balance −2 (negative balances are
reachable, see C9) and amount 2^63 − 1, the difference wraps to +(2^63 − 1),
the check passes, and the transfer succeeds with no InsufficientFunds
rejection — the stored source balance even jumps to 2^63 − 1 — although the
balance is far below the amount. -/
theorem floor_check_wraparound_counterexample :
    (mk64 (-2)).val < (mk64 9223372036854775807).val ∧
    ((transferMoney
        [(accountKey [99] [97], StoredVal.acc ⟨[99], [97], mk64 (-2), false⟩),
         (accountKey [100] [98], StoredVal.acc ⟨[100], [98], mk64 0, false⟩)]
        ⟨[99], [97], [100], [98], mk64 9223372036854775807, mk64 0⟩
        [116] [117] 0).2 = none) ∧
    getState (applyWrites
        [(accountKey [99] [97], StoredVal.acc ⟨[99], [97], mk64 (-2), false⟩),
         (accountKey [100] [98], StoredVal.acc ⟨[100], [98], mk64 0, false⟩)]
        (transferMoney
          [(accountKey [99] [97], StoredVal.acc ⟨[99], [97], mk64 (-2), false⟩),
           (accountKey [100] [98], StoredVal.acc ⟨[100], [98], mk64 0, false⟩)]
          ⟨[99], [97], [100], [98], mk64 9223372036854775807, mk64 0⟩
          [116] [117] 0).1)
        (accountKey [99] [97]) =
      some (StoredVal.acc ⟨[99], [97], mk64 9223372036854775807, false⟩) := by
  refine ⟨?_, ?_, ?_⟩ <;> decide

/-- C3 amended: for every transfer where both accounts are stored and open,
the source balance is strictly below the transfer amount, and the int64
subtraction balance − amount does not underflow (balance − amount ≥ −2^63,
automatic whenever the balance is non-negative), TransferMoney returns the
InsufficientFunds error, writes exactly one Failed transaction record
(failure code InsufficientFunds) against the source account, and leaves
every stored account record — in particular both balances — unchanged.
When the subtraction underflows, the wrapped check passes and the transfer
goes through instead. -/
theorem transfer_insufficient_funds (s : State) (t : Transfer) (i1 i2 : Str)
    (ts : Int) (src dst : Account)
    (hv : t.validate = true)
    (hs : getState s (accountKey t.fromCustomerID t.fromAccountID) = some (.acc src))
    (hd : getState s (accountKey t.toCustomerID t.toAccountID) = some (.acc dst))
    (h1 : src.closed = false) (h2 : dst.closed = false)
    (h3 : src.balance.val < t.amount.val)
    (hnw : -9223372036854775808 ≤ src.balance.val - t.amount.val) :
    (transferMoney s t i1 i2 ts).2 = some CcErr.insufficientFunds ∧
    (transferMoney s t i1 i2 ts).1 =
      [Write.putTxn (txnKey src.customerID src.id i1)
        (createTransaction src.customerID src.id t
          TxFailureCode.InsufficientFunds TxStatus.Failed i1 ts)] ∧
    ∀ c a, getState (applyWrites s (transferMoney s t i1 i2 ts).1)
        (accountKey c a) = getState s (accountKey c a) := by
  have h3' : (mk64 (src.balance.val - t.amount.val)).val < 0 := by
    rw [mk64_val, wrap64_eq_self hnw (by omega)]
    omega
  have heq := transferMoney_insufficient_eq s t i1 i2 ts src dst hv hs hd h1 h2
    h3'
  rw [heq]
  refine ⟨rfl, rfl, ?_⟩
  intro c a
  exact applyWrites_single_txn s _ _ c a (txnKey_ne_accountKey _ _ _ _ _)

/-- Witness for the amended C3 at the spec §8 scenario: transfer of 5000
(fee 0) from an account holding 1000 is rejected with InsufficientFunds and
the stored source record is unchanged. -/
theorem transfer_insufficient_funds_witness :
    (mk64 1000).val < (mk64 5000).val ∧
    ((transferMoney
        [(accountKey [99] [97], StoredVal.acc ⟨[99], [97], mk64 1000, false⟩),
         (accountKey [100] [98], StoredVal.acc ⟨[100], [98], mk64 0, false⟩)]
        ⟨[99], [97], [100], [98], mk64 5000, mk64 0⟩ [116] [117] 0).2 =
      some CcErr.insufficientFunds ∧
     getState (applyWrites
        [(accountKey [99] [97], StoredVal.acc ⟨[99], [97], mk64 1000, false⟩),
         (accountKey [100] [98], StoredVal.acc ⟨[100], [98], mk64 0, false⟩)]
        (transferMoney
          [(accountKey [99] [97], StoredVal.acc ⟨[99], [97], mk64 1000, false⟩),
           (accountKey [100] [98], StoredVal.acc ⟨[100], [98], mk64 0, false⟩)]
          ⟨[99], [97], [100], [98], mk64 5000, mk64 0⟩ [116] [117] 0).1)
        (accountKey [99] [97]) =
      some (StoredVal.acc ⟨[99], [97], mk64 1000, false⟩)) := by
  have h := transfer_insufficient_funds
    [(accountKey [99] [97], StoredVal.acc ⟨[99], [97], mk64 1000, false⟩),
     (accountKey [100] [98], StoredVal.acc ⟨[100], [98], mk64 0, false⟩)]
    ⟨[99], [97], [100], [98], mk64 5000, mk64 0⟩ [116] [117] 0
    ⟨[99], [97], mk64 1000, false⟩ ⟨[100], [98], mk64 0, false⟩
    (by decide) (by decide) (by decide) (by decide) (by decide) (by decide)
    (by decide)
  exact ⟨by decide, h.1, (h.2.2 [99] [97]).trans (by decide)⟩

/-- C9: accepted transfers can overdraw the source: when the fee is positive,
both accounts are stored and open, the source balance covers the amount but
not amount + fee, TransferMoney succeeds and the stored source balance
afterwards equals balance − amount − fee, which is strictly negative (the
floor check compares the balance against the amount only, while the debit
subtracts amount plus fee).  Under these hypotheses none of the int64
operations wraps, so the wrapped computation equals the ideal value. -/
theorem transfer_overdraft_with_fee (s : State) (t : Transfer) (i1 i2 : Str)
    (ts : Int) (src dst : Account)
    (hv : t.validate = true)
    (hs : getState s (accountKey t.fromCustomerID t.fromAccountID) = some (.acc src))
    (hsc : src.customerID = t.fromCustomerID) (hsi : src.id = t.fromAccountID)
    (hd : getState s (accountKey t.toCustomerID t.toAccountID) = some (.acc dst))
    (hdc : dst.customerID = t.toCustomerID) (hdi : dst.id = t.toAccountID)
    (h1 : src.closed = false) (h2 : dst.closed = false)
    (hfee : 0 < t.fee.val)
    (hcover : t.amount.val ≤ src.balance.val)
    (hshort : src.balance.val < t.amount.val + t.fee.val)
    (hne : accountKey t.fromCustomerID t.fromAccountID ≠
      accountKey t.toCustomerID t.toAccountID) :
    (transferMoney s t i1 i2 ts).2 = none ∧
    getState (applyWrites s (transferMoney s t i1 i2 ts).1)
        (accountKey t.fromCustomerID t.fromAccountID) =
      some (.acc { src with balance := mk64 (src.balance.val - t.amount.val - t.fee.val) }) ∧
    (mk64 (src.balance.val - t.amount.val - t.fee.val)).val =
      src.balance.val - t.amount.val - t.fee.val ∧
    src.balance.val - t.amount.val - t.fee.val < 0 := by
  obtain ⟨hsl, hsu⟩ := src.balance.property
  obtain ⟨hal, hau⟩ := t.amount.property
  obtain ⟨hfl, hfu⟩ := t.fee.property
  have h3' : ¬ (mk64 (src.balance.val - t.amount.val)).val < 0 := by
    rw [mk64_val, wrap64_eq_self (by omega) (by omega)]
    omega
  have hst := transfer_success_state s t i1 i2 ts src dst hv hs hsc hsi hd hdc
    hdi h1 h2 h3' hne
  have hbal : mk64 (src.balance.val - (mk64 (t.amount.val + t.fee.val)).val) =
      mk64 (src.balance.val - t.amount.val - t.fee.val) := by
    apply Subtype.ext
    simp only [mk64_val]
    rw [wrap64_sub_wrap64, sub_sub]
  rw [hbal] at hst
  refine ⟨hst.1, hst.2.1, ?_, by omega⟩
  rw [mk64_val]
  exact wrap64_eq_self (by omega) (by omega)

/-- Witness for C9: balance 100, amount 100, fee 10: the transfer succeeds and
the stored source balance becomes −10. -/
theorem transfer_overdraft_with_fee_witness :
    (0 : Int) < (mk64 10).val ∧
    ((transferMoney
        [(accountKey [99] [97], StoredVal.acc ⟨[99], [97], mk64 100, false⟩),
         (accountKey [100] [98], StoredVal.acc ⟨[100], [98], mk64 0, false⟩)]
        ⟨[99], [97], [100], [98], mk64 100, mk64 10⟩ [116] [117] 0).2 = none ∧
     getState (applyWrites
        [(accountKey [99] [97], StoredVal.acc ⟨[99], [97], mk64 100, false⟩),
         (accountKey [100] [98], StoredVal.acc ⟨[100], [98], mk64 0, false⟩)]
        (transferMoney
          [(accountKey [99] [97], StoredVal.acc ⟨[99], [97], mk64 100, false⟩),
           (accountKey [100] [98], StoredVal.acc ⟨[100], [98], mk64 0, false⟩)]
          ⟨[99], [97], [100], [98], mk64 100, mk64 10⟩ [116] [117] 0).1)
        (accountKey [99] [97]) =
      some (StoredVal.acc ⟨[99], [97], mk64 (-10), false⟩) ∧
     (-10 : Int) < 0) := by
  have h := transfer_overdraft_with_fee
    [(accountKey [99] [97], StoredVal.acc ⟨[99], [97], mk64 100, false⟩),
     (accountKey [100] [98], StoredVal.acc ⟨[100], [98], mk64 0, false⟩)]
    ⟨[99], [97], [100], [98], mk64 100, mk64 10⟩ [116] [117] 0
    ⟨[99], [97], mk64 100, false⟩ ⟨[100], [98], mk64 0, false⟩
    (by decide) (by decide) (by decide) (by decide) (by decide) (by decide)
    (by decide) (by decide) (by decide) (by decide) (by decide) (by decide)
    (by decide)
  exact ⟨by decide, h.1, h.2.1.trans (by decide), by decide⟩

/-- C4 counterexample: TopupAccount performs no closed-account check.  On a
store holding a closed account with balance 10, topping up by "5" succeeds
(no error) and writes the record back with balance 15 — a Credit operation
succeeding on a closed account, contradicting the claim. -/
theorem closed_account_topup_counterexample :
    topupAccount [(accountKey [99] [97], StoredVal.acc ⟨[99], [97], mk64 10, true⟩)]
      [99] [97] [53] =
      ([Write.putAcc (accountKey [99] [97]) ⟨[99], [97], mk64 15, true⟩], none) := by
  decide

/-- C4 amended: TransferMoney with a closed source (resp. destination)
account fails with AccountClosed recorded in one Failed transaction and
mutates no stored account record; TopupAccount, however, performs no
closed-account check: on a stored closed account with a parsable amount it
succeeds and rewrites the record with the credited balance. -/
theorem closed_account_policy :
    (∀ (s : State) (t : Transfer) (i1 i2 : Str) (ts : Int) (src : Account),
       t.validate = true →
       getState s (accountKey t.fromCustomerID t.fromAccountID) =
         some (StoredVal.acc src) →
       (∃ vt, getState s (accountKey t.toCustomerID t.toAccountID) = some vt) →
       src.closed = true →
       (transferMoney s t i1 i2 ts).2 = some CcErr.fromClosed ∧
       (transferMoney s t i1 i2 ts).1 =
         [Write.putTxn (txnKey src.customerID src.id i1)
           (createTransaction src.customerID src.id t
             TxFailureCode.AccountClosed TxStatus.Failed i1 ts)] ∧
       ∀ c a, getState (applyWrites s (transferMoney s t i1 i2 ts).1)
           (accountKey c a) = getState s (accountKey c a)) ∧
    (∀ (s : State) (t : Transfer) (i1 i2 : Str) (ts : Int) (src dst : Account),
       t.validate = true →
       getState s (accountKey t.fromCustomerID t.fromAccountID) =
         some (StoredVal.acc src) →
       getState s (accountKey t.toCustomerID t.toAccountID) =
         some (StoredVal.acc dst) →
       src.closed = false → dst.closed = true →
       (transferMoney s t i1 i2 ts).2 = some CcErr.toClosed ∧
       (transferMoney s t i1 i2 ts).1 =
         [Write.putTxn (txnKey dst.customerID dst.id i1)
           (createTransaction dst.customerID dst.id t
             TxFailureCode.AccountClosed TxStatus.Failed i1 ts)] ∧
       ∀ c a, getState (applyWrites s (transferMoney s t i1 i2 ts).1)
           (accountKey c a) = getState s (accountKey c a)) ∧
    (∀ (s : State) (c a amt : Str) (acc : Account) (v : I64),
       getState s (accountKey c a) = some (StoredVal.acc acc) →
       acc.closed = true →
       goParseInt64 amt = some v →
       topupAccount s c a amt =
         ([Write.putAcc (accountKey acc.customerID acc.id)
             { acc with balance := mk64 (acc.balance.val + v.val) }], none)) := by
  refine ⟨?_, ?_, ?_⟩
  · intro s t i1 i2 ts src hv hs hvt h1
    obtain ⟨vt, hg⟩ := hvt
    have heq : transferMoney s t i1 i2 ts =
        ([Write.putTxn (txnKey src.customerID src.id i1)
           (createTransaction src.customerID src.id t
             TxFailureCode.AccountClosed TxStatus.Failed i1 ts)],
         some CcErr.fromClosed) := by
      simp [transferMoney, hv, hs, hg, accOf, h1, recordTransaction,
        createTransaction]
    rw [heq]
    refine ⟨rfl, rfl, ?_⟩
    intro c a
    exact applyWrites_single_txn s _ _ c a (txnKey_ne_accountKey _ _ _ _ _)
  · intro s t i1 i2 ts src dst hv hs hg h1 h2
    have heq := transferMoney_toClosed_eq s t i1 i2 ts src dst hv hs hg h1 h2
    rw [heq]
    refine ⟨rfl, rfl, ?_⟩
    intro c a
    exact applyWrites_single_txn s _ _ c a (txnKey_ne_accountKey _ _ _ _ _)
  · intro s c a amt acc v hs hcl hp
    simp [topupAccount, hs, accOf, hp]

/-- Witness for the amended C4: the closed-source rejection at a concrete
store, and the closed-account topup succeeding at a concrete store. -/
theorem closed_account_policy_witness :
    ((transferMoney
        [(accountKey [99] [97], StoredVal.acc ⟨[99], [97], mk64 50, true⟩),
         (accountKey [100] [98], StoredVal.acc ⟨[100], [98], mk64 0, false⟩)]
        ⟨[99], [97], [100], [98], mk64 5, mk64 0⟩ [116] [117] 0).2 =
      some CcErr.fromClosed ∧
     getState (applyWrites
        [(accountKey [99] [97], StoredVal.acc ⟨[99], [97], mk64 50, true⟩),
         (accountKey [100] [98], StoredVal.acc ⟨[100], [98], mk64 0, false⟩)]
        (transferMoney
          [(accountKey [99] [97], StoredVal.acc ⟨[99], [97], mk64 50, true⟩),
           (accountKey [100] [98], StoredVal.acc ⟨[100], [98], mk64 0, false⟩)]
          ⟨[99], [97], [100], [98], mk64 5, mk64 0⟩ [116] [117] 0).1)
        (accountKey [99] [97]) =
      some (StoredVal.acc ⟨[99], [97], mk64 50, true⟩)) ∧
    topupAccount [(accountKey [99] [97], StoredVal.acc ⟨[99], [97], mk64 10, true⟩)]
      [99] [97] [53] =
      ([Write.putAcc (accountKey [99] [97]) ⟨[99], [97], mk64 15, true⟩], none) := by
  have h1 := closed_account_policy.1
    [(accountKey [99] [97], StoredVal.acc ⟨[99], [97], mk64 50, true⟩),
     (accountKey [100] [98], StoredVal.acc ⟨[100], [98], mk64 0, false⟩)]
    ⟨[99], [97], [100], [98], mk64 5, mk64 0⟩ [116] [117] 0 ⟨[99], [97], mk64 50, true⟩
    (by decide) (by decide)
    ⟨StoredVal.acc ⟨[100], [98], mk64 0, false⟩, by decide⟩ (by decide)
  have h2 := closed_account_policy.2.2
    [(accountKey [99] [97], StoredVal.acc ⟨[99], [97], mk64 10, true⟩)]
    [99] [97] [53] ⟨[99], [97], mk64 10, true⟩ (mk64 5) (by decide) (by decide) (by decide)
  exact ⟨⟨h1.1, (h1.2.2 [99] [97]).trans (by decide)⟩, by
    rw [h2]; decide⟩

/-- C7 counterexample: TopupAccount does not reject non-positive amounts.  On
a store holding an open account with balance 10, topping up by "-5" succeeds
(no validation error) and writes the record back with balance 5. -/
theorem topup_negative_amount_counterexample :
    topupAccount [(accountKey [99] [97], StoredVal.acc ⟨[99], [97], mk64 10, false⟩)]
      [99] [97] [45, 53] =
      ([Write.putAcc (accountKey [99] [97]) ⟨[99], [97], mk64 5, false⟩], none) := by
  decide

/-- C7 amended: for a stored account, TopupAccount fails (writing nothing, so
the stored balance is unchanged) exactly when the amount argument is not a
well-formed 64-bit integer; any parsable amount — including zero and negative
values — is accepted and credited, changing the stored balance by that
possibly negative amount via Go's wrapping int64 addition. -/
theorem topup_amount_parse_policy (s : State) (c a amt : Str) (acc : Account)
    (hs : getState s (accountKey c a) = some (StoredVal.acc acc)) :
    (goParseInt64 amt = none →
       topupAccount s c a amt = ([], some CcErr.parseAmount) ∧
       applyWrites s (topupAccount s c a amt).1 = s) ∧
    (∀ v : I64, goParseInt64 amt = some v →
       topupAccount s c a amt =
         ([Write.putAcc (accountKey acc.customerID acc.id)
             { acc with balance := mk64 (acc.balance.val + v.val) }], none)) := by
  constructor
  · intro hp
    have heq : topupAccount s c a amt = ([], some CcErr.parseAmount) := by
      simp [topupAccount, hs, accOf, hp]
    exact ⟨heq, by rw [heq]; rfl⟩
  · intro v hp
    simp [topupAccount, hs, accOf, hp]

/-- Witness for the amended C7: the amount string "x" is rejected with the stored balance
unchanged, while "-5" is accepted and decreases the stored balance. -/
theorem topup_amount_parse_policy_witness :
    (topupAccount [(accountKey [99] [97], StoredVal.acc ⟨[99], [97], mk64 10, false⟩)]
        [99] [97] [120] = ([], some CcErr.parseAmount) ∧
     applyWrites [(accountKey [99] [97], StoredVal.acc ⟨[99], [97], mk64 10, false⟩)]
        (topupAccount [(accountKey [99] [97], StoredVal.acc ⟨[99], [97], mk64 10, false⟩)]
          [99] [97] [120]).1 =
        [(accountKey [99] [97], StoredVal.acc ⟨[99], [97], mk64 10, false⟩)]) ∧
    topupAccount [(accountKey [99] [97], StoredVal.acc ⟨[99], [97], mk64 10, false⟩)]
        [99] [97] [45, 53] =
      ([Write.putAcc (accountKey [99] [97]) ⟨[99], [97], mk64 5, false⟩], none) := by
  have h := topup_amount_parse_policy
    [(accountKey [99] [97], StoredVal.acc ⟨[99], [97], mk64 10, false⟩)]
    [99] [97] [120] ⟨[99], [97], mk64 10, false⟩ (by decide)
  have h2 := topup_amount_parse_policy
    [(accountKey [99] [97], StoredVal.acc ⟨[99], [97], mk64 10, false⟩)]
    [99] [97] [45, 53] ⟨[99], [97], mk64 10, false⟩ (by decide)
  exact ⟨h.1 (by decide), (h2.2 (mk64 (-5)) (by decide)).trans (by decide)⟩

theorem closeAccount_get_eq (s : State) (c a : Str) (x : Account)
    (h : getState s (accountKey c a) = some (StoredVal.acc x)) :
    closeAccount s c a =
      ([Write.putAcc (accountKey x.customerID x.id) { x with closed := true }],
       none) := by
  simp [closeAccount, h, accOf]

/-- C8: CloseAccount is idempotent on the store: for a stored account, the
call succeeds writing the record with closed set to true, a second call
performs the same write, and the store after two calls equals the store
after one; on a missing account it returns a not-found error and writes
nothing. -/
theorem close_account_idempotent (s : State) (c a : Str) :
    (∀ acc : Account, getState s (accountKey c a) = some (StoredVal.acc acc) →
       (closeAccount s c a).2 = none ∧
       (closeAccount s c a).1 =
         [Write.putAcc (accountKey acc.customerID acc.id)
           { acc with closed := true }] ∧
       (closeAccount (applyWrites s (closeAccount s c a).1) c a).1 =
         (closeAccount s c a).1 ∧
       applyWrites (applyWrites s (closeAccount s c a).1)
           (closeAccount (applyWrites s (closeAccount s c a).1) c a).1 =
         applyWrites s (closeAccount s c a).1) ∧
    (getState s (accountKey c a) = none →
       closeAccount s c a = ([], some (CcErr.notFound a))) := by
  constructor
  · intro acc h
    have heq := closeAccount_get_eq s c a acc h
    have hs1 : applyWrites s (closeAccount s c a).1 =
        putState s (accountKey acc.customerID acc.id)
          (StoredVal.acc { acc with closed := true }) := by
      rw [heq]
      simp [applyWrites, applyWrite]
    have heq2 : closeAccount (applyWrites s (closeAccount s c a).1) c a =
        ([Write.putAcc (accountKey acc.customerID acc.id)
            { acc with closed := true }], none) := by
      by_cases hk : accountKey acc.customerID acc.id = accountKey c a
      · have h2 : getState (applyWrites s (closeAccount s c a).1)
            (accountKey c a) =
            some (StoredVal.acc { acc with closed := true }) := by
          rw [hs1, ← hk]
          exact getState_putState_self _ _ _
        rw [closeAccount_get_eq _ c a _ h2]
      · have h2 : getState (applyWrites s (closeAccount s c a).1)
            (accountKey c a) = some (StoredVal.acc acc) := by
          rw [hs1, getState_putState_ne _ _ (fun hh => hk hh.symm)]
          exact h
        rw [closeAccount_get_eq _ c a _ h2]
    refine ⟨by rw [heq], by rw [heq], by rw [heq2, heq], ?_⟩
    rw [heq2, hs1]
    simp [applyWrites, applyWrite, putState_idem]
  · intro h
    simp [closeAccount, h]

/-- Witness for C8 at a concrete store: closing an open account succeeds, the
second close repeats the same write, the store is unchanged by the second
close, and closing a missing account returns not-found. -/
theorem close_account_idempotent_witness :
    ((closeAccount [(accountKey [99] [97], StoredVal.acc ⟨[99], [97], mk64 10, false⟩)]
        [99] [97]).1 =
      [Write.putAcc (accountKey [99] [97]) ⟨[99], [97], mk64 10, true⟩] ∧
     applyWrites
       (applyWrites [(accountKey [99] [97], StoredVal.acc ⟨[99], [97], mk64 10, false⟩)]
         (closeAccount [(accountKey [99] [97], StoredVal.acc ⟨[99], [97], mk64 10, false⟩)]
           [99] [97]).1)
       (closeAccount
         (applyWrites [(accountKey [99] [97], StoredVal.acc ⟨[99], [97], mk64 10, false⟩)]
           (closeAccount [(accountKey [99] [97], StoredVal.acc ⟨[99], [97], mk64 10, false⟩)]
             [99] [97]).1) [99] [97]).1 =
     applyWrites [(accountKey [99] [97], StoredVal.acc ⟨[99], [97], mk64 10, false⟩)]
       (closeAccount [(accountKey [99] [97], StoredVal.acc ⟨[99], [97], mk64 10, false⟩)]
         [99] [97]).1) ∧
    closeAccount [] [99] [97] = ([], some (CcErr.notFound [97])) := by
  have h := close_account_idempotent
    [(accountKey [99] [97], StoredVal.acc ⟨[99], [97], mk64 10, false⟩)] [99] [97]
  have h1 := h.1 ⟨[99], [97], mk64 10, false⟩ (by decide)
  have h2 := close_account_idempotent [] [99] [97]
  exact ⟨⟨h1.2.1.trans (by decide), h1.2.2.2⟩, h2.2 (by decide)⟩

/-- C10: OpenAccount performs no existence check: with a well-formed payload
whose key already holds a stored record, it succeeds and overwrites that key
with the new record. -/
theorem open_account_overwrite (s : State) (payload : Account) (w : StoredVal)
    (hc : payload.customerID ≠ []) (hi : payload.id ≠ [])
    (hb : 0 ≤ payload.balance.val)
    (hold : getState s (accountKey payload.customerID payload.id) = some w) :
    openAccount payload =
      ([Write.putAcc (accountKey payload.customerID payload.id) payload],
       none) ∧
    getState (applyWrites s (openAccount payload).1)
        (accountKey payload.customerID payload.id) =
      some (StoredVal.acc payload) := by
  have heq : openAccount payload =
      ([Write.putAcc (accountKey payload.customerID payload.id) payload],
       none) := by
    simp [openAccount, createAccount, hc, hi, not_lt.2 hb]
  refine ⟨heq, ?_⟩
  rw [heq]
  simp only [applyWrites, List.foldl_cons, List.foldl_nil, applyWrite]
  exact getState_putState_self _ _ _

/-- Witness for C10: re-opening an existing account key with a fresh payload
(balance 7, open) silently replaces the stored closed record with balance 10. -/
theorem open_account_overwrite_witness :
    ([99] : Str) ≠ [] ∧
    (openAccount ⟨[99], [97], mk64 7, false⟩ =
      ([Write.putAcc (accountKey [99] [97]) ⟨[99], [97], mk64 7, false⟩], none) ∧
     getState (applyWrites
        [(accountKey [99] [97], StoredVal.acc ⟨[99], [97], mk64 10, true⟩)]
        (openAccount ⟨[99], [97], mk64 7, false⟩).1)
        (accountKey [99] [97]) =
      some (StoredVal.acc ⟨[99], [97], mk64 7, false⟩)) :=
  ⟨by decide,
   open_account_overwrite
     [(accountKey [99] [97], StoredVal.acc ⟨[99], [97], mk64 10, true⟩)]
     ⟨[99], [97], mk64 7, false⟩ (StoredVal.acc ⟨[99], [97], mk64 10, true⟩)
     (by decide) (by decide) (by decide) (by decide)⟩

/-- C6 counterexample: the sentinel terminates every segment, but for the
distinct sentinel-free tuples ["a"] and ["a","b"] under the same object type
the first composite key IS a string prefix of the second, refuting the
claimed non-prefix property for arbitrary distinct tuples. -/
theorem composite_key_prefix_counterexample :
    ([[97]] : List Str) ≠ [[97], [98]] ∧
    sentinel ∉ ([97] : Str) ∧ sentinel ∉ ([98] : Str) ∧
    createCompositeKey AccountObjectType [[97]] <+:
      createCompositeKey AccountObjectType [[97], [98]] :=
  ⟨by decide, by decide, by decide, ⟨[98, 48], by decide⟩⟩

/-- C6 amended: createCompositeKey is pure and deterministic; for distinct
sentinel-free attribute tuples under the same object type the composite keys
are always distinct, and whenever one tuple is not a list prefix of the
other, its composite key is not a string prefix of the other key (hence for
distinct same-length tuples neither key is a prefix of the other). -/
theorem composite_key_determinism_separation :
    (∀ (T : Str) (attrs : List Str),
       createCompositeKey T attrs = createCompositeKey T attrs) ∧
    (∀ (T : Str) (xs ys : List Str),
       (∀ a ∈ xs, sentinel ∉ a) → (∀ a ∈ ys, sentinel ∉ a) → xs ≠ ys →
       createCompositeKey T xs ≠ createCompositeKey T ys ∧
       (¬ xs <+: ys →
         ¬ createCompositeKey T xs <+: createCompositeKey T ys)) := by
  refine ⟨fun T attrs => rfl, ?_⟩
  intro T xs ys hx hy hne
  constructor
  · intro h
    exact hne (createCompositeKey_inj T hx hy h)
  · intro hnp h
    exact hnp (createCompositeKey_isPre T hx hy h)

/-- Witness for the amended C6: the distinct one-attribute tuples ["a"] and
["b"] yield distinct composite keys under the account object type. -/
theorem composite_key_determinism_separation_witness :
    ([[97]] : List Str) ≠ [[98]] ∧
    createCompositeKey AccountObjectType [[97]] ≠
      createCompositeKey AccountObjectType [[98]] :=
  ⟨by decide,
   (composite_key_determinism_separation.2 AccountObjectType [[97]] [[98]]
     (by decide) (by decide) (by decide)).1⟩

theorem accountKey_pre_append (c a' : Str) :
    accountKey c a' =
      createCompositeKey AccountObjectType [c] ++ (a' ++ [sentinel]) := by
  simp [accountKey, createCompositeKey, encAttrs]

theorem scanHit_accountKey (c c' a' : Str) (hc : attrOK c) (hc' : attrOK c')
    (ha' : attrOK a') :
    ((!keyLt (accountKey c' a') (createCompositeKey AccountObjectType [c]) &&
      keyLt (accountKey c' a')
        (createCompositeKey AccountObjectType [c] ++ [maxRune])) = true) ↔
    c' = c := by
  constructor
  · intro hhit
    rw [Bool.and_eq_true, Bool.not_eq_true'] at hhit
    obtain ⟨h1, h2⟩ := hhit
    have hpre : createCompositeKey AccountObjectType [c] <+: accountKey c' a' := by
      by_contra hnp
      rw [keyLt_extend_false _ _ [maxRune] h1 hnp] at h2
      exact Bool.false_ne_true h2
    obtain ⟨t, ht⟩ := hpre
    have ht' : c ++ sentinel :: t = c' ++ sentinel :: (a' ++ [sentinel]) := by
      simp only [createCompositeKey, accountKey, encAttrs, List.append_assoc,
        List.cons_append, List.nil_append, List.append_nil,
        List.append_cancel_left_eq, List.cons.injEq, true_and] at ht
      simpa using ht
    exact ((seg_inj c c' _ _ hc.1 hc'.1 ht').1).symm
  · intro hcc
    subst hcc
    rw [Bool.and_eq_true, Bool.not_eq_true']
    rw [accountKey_pre_append]
    refine ⟨keyLt_append_self_right _ _, ?_⟩
    rw [keyLt_append_both]
    cases a' with
    | nil => decide
    | cons h0 t0 =>
      have hlt : h0 < maxRune := ha'.2 h0 (List.mem_cons_self h0 t0)
      simp [keyLt, hlt]

/-- C5 counterexample: a customer ("c") has one opened account whose
accountID is the single maximal rune U+10FFFF — both key attributes are free
of the sentinel character — yet GetAccountList for that customer returns the
empty list: the stored key shares the scan prefix but sorts at or above the
upper bound prefix+MaxRune, so the range scan misses it. -/
theorem prefix_scan_completeness_counterexample :
    sentinel ∉ ([99] : Str) ∧ sentinel ∉ ([maxRune] : Str) ∧
    getAccountList
      [(accountKey [99] [maxRune], StoredVal.acc ⟨[99], [maxRune], mk64 5, false⟩)]
      [99] = [] := by
  refine ⟨by decide, by decide, ?_⟩
  decide

/-- C5 amended: provided every key attribute is free of the sentinel and
strictly below the maximal rune, GetAccountList(customerID) on a store of
account records keyed canonically returns exactly the accounts of that
customer — the scan keeps every stored key sharing the prefix and drops
every key outside it. -/
theorem get_account_list_exact (s : State) (c : Str) (hc : attrOK c)
    (hwf : ∀ kv ∈ s, ∃ acc : Account, kv.2 = StoredVal.acc acc ∧
       kv.1 = accountKey acc.customerID acc.id ∧
       attrOK acc.customerID ∧ attrOK acc.id) :
    getAccountList s c = s.filterMap (fun kv =>
      match kv.2 with
      | StoredVal.acc acc => if acc.customerID = c then some acc else none
      | StoredVal.txn _ => none) := by
  induction s with
  | nil => rfl
  | cons kv rest ih =>
    obtain ⟨acc, hv, hk, hcid, haid⟩ := hwf kv (List.mem_cons_self kv rest)
    have ihr := ih (fun kv2 h2 => hwf kv2 (List.mem_cons_of_mem kv h2))
    obtain ⟨k0, v0⟩ := kv
    simp only at hv hk
    subst hv hk
    by_cases hcc : acc.customerID = c
    · subst hcc
      have hp := (scanHit_accountKey acc.customerID acc.customerID acc.id hc
        hcid haid).2 rfl
      simp only [getAccountList, partKeyQuery, rangeQueryState] at ihr ⊢
      simp [List.filter_cons, List.filterMap_cons, hp, accOf]
      exact ihr
    · have hp : (!keyLt (accountKey acc.customerID acc.id)
          (createCompositeKey AccountObjectType [c]) &&
          keyLt (accountKey acc.customerID acc.id)
            (createCompositeKey AccountObjectType [c] ++ [maxRune])) = false := by
        cases hb : (!keyLt (accountKey acc.customerID acc.id)
            (createCompositeKey AccountObjectType [c]) &&
            keyLt (accountKey acc.customerID acc.id)
              (createCompositeKey AccountObjectType [c] ++ [maxRune])) with
        | false => rfl
        | true =>
          exact absurd
            ((scanHit_accountKey c acc.customerID acc.id hc hcid haid).1 hb) hcc
      simp only [getAccountList, partKeyQuery, rangeQueryState] at ihr ⊢
      simp [List.filter_cons, List.filterMap_cons, hp, hcc, accOf]
      exact ihr

/-- Witness for the amended C5: a store with accounts of two customers; the
listing for the first customer returns exactly its one account. -/
theorem get_account_list_exact_witness :
    attrOK [99] ∧
    getAccountList
      [(accountKey [99] [97], StoredVal.acc ⟨[99], [97], mk64 1, false⟩),
       (accountKey [100] [98], StoredVal.acc ⟨[100], [98], mk64 2, false⟩)]
      [99] = [⟨[99], [97], mk64 1, false⟩] :=
  ⟨by decide,
   (get_account_list_exact
     [(accountKey [99] [97], StoredVal.acc ⟨[99], [97], mk64 1, false⟩),
      (accountKey [100] [98], StoredVal.acc ⟨[100], [98], mk64 2, false⟩)]
     [99] (by decide)
     (by
       intro kv hkv
       simp only [List.mem_cons, List.not_mem_nil, or_false] at hkv
       rcases hkv with h | h
       · subst h
         exact ⟨⟨[99], [97], mk64 1, false⟩, rfl, rfl, by decide, by decide⟩
       · subst h
         exact ⟨⟨[100], [98], mk64 2, false⟩, rfl, rfl, by decide, by decide⟩)).trans
    (by decide)⟩

end FinNet
